import Mathlib

/-!
Verification development for the work-index validator
(`scripts/work_index_validator.py`).

The Python module operates on a YAML-loaded dictionary.  We embed the
well-typed shape of that dictionary shallowly: every field that the code
reads through `dict.get` with a possible absence is an `Option`; fields the
validator never reads (titles, goals, owners, tags, ...) are omitted.
Python truthiness tests on strings (`if not story_id`) treat both absence
and the empty string as falsy; `strFalsy` mirrors this.

I/O boundaries are made explicit parameters: `datetime.now()` becomes the
`now : String` argument of `assign_story`, and the git diff fetched by
`check_story_conflicts` becomes its `diff : String` argument.
-/

/-- Result of work index validation (dataclass `ValidationResult`). -/
structure ValidationResult where
  is_valid : Bool
  errors : List String
  warnings : List String
deriving DecidableEq

/-- A story entry of the ledger; only the keys read by the validator are
modelled.  Each is optional because the Python code reads them with
`story.get(...)`. -/
structure Story where
  id : Option String
  status : Option String
  acceptance_criteria : Option (List String)
  assigned_to : Option String
  assigned_at : Option String
deriving DecidableEq

/-- An epic entry; the code reads only `id` and `agents_allowed`. -/
structure Epic where
  id : Option String
  agents_allowed : Option Int
deriving DecidableEq

/-- The `active_epic` mapping; the validator reads only its `id`. -/
structure ActiveEpic where
  id : Option String
deriving DecidableEq

/-- The `concurrency` mapping. -/
structure Concurrency where
  max_agents_total : Option Int
  allow_multi_epic : Option Bool
deriving DecidableEq

/-- The `product_version` mapping; the validator reads only `current`. -/
structure ProductVersion where
  current : Option String
  git_tag : Option String
deriving DecidableEq

/-- The work-index ledger (the YAML root mapping).  A `none` field models a
key absent from the dictionary, which is what the required-field check of
`validate_work_index` tests with `field not in data`. -/
structure Ledger where
  version : Option Int
  product_version : Option ProductVersion
  concurrency : Option Concurrency
  active_epic : Option ActiveEpic
  epics : Option (List Epic)
  stories : Option (List Story)
deriving DecidableEq

/-- Python string truthiness on an optional string: `None` and `""` are
falsy. -/
def strFalsy : Option String → Bool
  | none => true
  | some s => s == ""

/-- Python truthiness of `story.get('acceptance_criteria')`: absent or the
empty list is falsy. -/
def acFalsy : Option (List String) → Bool
  | none => true
  | some l => l.isEmpty

/-- Python `data.get('stories', [])`. -/
def storiesOf (d : Ledger) : List Story := d.stories.getD []

/-- Python `data.get('epics', [])`. -/
def epicsOf (d : Ledger) : List Epic := d.epics.getD []

/-- Python `data.get('concurrency', \x7b\x7d).get('max_agents_total', 0)`. -/
def maxAgents (d : Ledger) : Int :=
  match d.concurrency with
  | some c => c.max_agents_total.getD 0
  | none => 0

/-- Python `data.get('active_epic', \x7b\x7d).get('id')`. -/
def activeEpicIdRaw (d : Ledger) : Option String :=
  match d.active_epic with
  | some ae => ae.id
  | none => none

/-- The active epic id when it is truthy (`if active_epic_id:`), else
`none`. -/
def activeTruthy (d : Ledger) : Option String :=
  match activeEpicIdRaw d with
  | some s => if s == "" then none else some s
  | none => none

/-- Python `next((epic.get('agents_allowed', 0) for epic in epics
if epic.get('id') == active_epic_id), 0)`. -/
def epicAllowed (d : Ledger) (aid : String) : Int :=
  match (epicsOf d).find? (fun e => e.id == some aid) with
  | some e => e.agents_allowed.getD 0
  | none => 0

/-- Python `sum(1 for story in stories if story.get('status') == 'in_progress')`. -/
def inProgressCount (ss : List Story) : Nat :=
  ss.countP (fun s => s.status == some "in_progress")

/-- The required top-level fields, in the order the code checks them. -/
def reqFieldNames : List String :=
  ["version", "product_version", "concurrency", "active_epic", "epics", "stories"]

/-- Whether a required field is absent (`field not in data`). -/
def fieldAbsent (d : Ledger) : String → Bool
  | "version" => d.version.isNone
  | "product_version" => d.product_version.isNone
  | "concurrency" => d.concurrency.isNone
  | "active_epic" => d.active_epic.isNone
  | "epics" => d.epics.isNone
  | "stories" => d.stories.isNone
  | _ => false

/-- Message for a missing required field. -/
def missingFieldMsg (f : String) : String := "Missing required field: " ++ f

/-- The errors collected by the required-field loop of
`validate_work_index`. -/
def requiredFieldErrors (d : Ledger) : List String :=
  (reqFieldNames.filter (fieldAbsent d)).map missingFieldMsg

/-- The `valid_statuses` list of `validate_work_index`. -/
def validStatuses : List String := ["ready", "blocked", "in_progress", "done"]

/-- The per-story loop of `validate_work_index`: walks the story list
carrying the set of ids seen so far, accumulating (errors, warnings) in
order.  A story with a falsy id gets one error and is skipped
(`continue`). -/
def storyChecks (seen : List String) : List Story → List String × List String
  | [] => ([], [])
  | s :: rest =>
    if strFalsy s.id then
      let r := storyChecks seen rest
      ("Story missing required 'id' field" :: r.1, r.2)
    else
      let sid := s.id.getD ""
      let dupErrs := if seen.contains sid then ["Duplicate story ID: " ++ sid] else []
      let statErrs :=
        if strFalsy s.status then ["Story " ++ sid ++ " missing 'status' field"]
        else if validStatuses.contains (s.status.getD "") then []
        else ["Story " ++ sid ++ " has invalid status: " ++ s.status.getD ""]
      let acWarns :=
        if acFalsy s.acceptance_criteria then ["Story " ++ sid ++ " has no acceptance criteria"]
        else []
      let r := storyChecks (sid :: seen) rest
      (dupErrs ++ statErrs ++ r.1, acWarns ++ r.2)

/-- Error of the `max_agents_total` check. -/
def maxAgentsErrors (d : Ledger) : List String :=
  if maxAgents d ≤ 0 then ["max_agents_total must be > 0"] else []

/-- Error of the active-epic membership check. -/
def activeEpicErrors (d : Ledger) : List String :=
  match activeTruthy d with
  | none => []
  | some aid =>
    if ((epicsOf d).map Epic.id).contains (some aid) then []
    else ["Active EPIC " ++ aid ++ " not found in epics list"]

/-- The per-epic concurrency error message, naming the system-wide
in-progress count and the active epic's allowance. -/
def perEpicMsg (cnt : Nat) (aid : String) (allowed : Int) : String :=
  "Too many in_progress stories (" ++ toString cnt ++ ") for EPIC " ++ aid
    ++ " (allowed: " ++ toString allowed ++ ")"

/-- The per-epic concurrency check of `validate_work_index` (lines
133-149): counts ALL in-progress stories and compares against the active
epic's allowance. -/
def perEpicErrors (d : Ledger) : List String :=
  match activeTruthy d with
  | none => []
  | some aid =>
    let allowed := epicAllowed d aid
    let cnt := inProgressCount (storiesOf d)
    if (cnt : Int) > allowed then [perEpicMsg cnt aid allowed] else []

/-- The global concurrency error message. -/
def globalMsg (total : Nat) (mx : Int) : String :=
  "Global concurrency limit exceeded: " ++ toString total
    ++ " in_progress stories (max: " ++ toString mx ++ ")"

/-- The global concurrency check of `validate_work_index`. -/
def globalErrors (d : Ledger) : List String :=
  let total := inProgressCount (storiesOf d)
  if (total : Int) > maxAgents d then [globalMsg total (maxAgents d)] else []

/-- The product-version style warning. -/
def versionWarnings (d : Ledger) : List String :=
  let cur := (match d.product_version with
    | some pv => pv.current.getD ""
    | none => "")
  if cur == "" then []
  else if (match cur.data with | [] => false | a :: _ => a == 'v') then []
  else ["Product version '" ++ cur ++ "' should start with 'v'"]

/-- Python `validate_work_index(data)`: missing required fields short-circuit;
otherwise errors and warnings are accumulated in source order and validity
is the emptiness of the error list. -/
def validate_work_index (d : Ledger) : ValidationResult :=
  let reqErrs := requiredFieldErrors d
  if reqErrs.isEmpty then
    let sc := storyChecks [] (storiesOf d)
    let errors :=
      maxAgentsErrors d ++ activeEpicErrors d ++ sc.1 ++ perEpicErrors d ++ globalErrors d
    let warnings := sc.2 ++ versionWarnings d
    ⟨errors.isEmpty, errors, warnings⟩
  else ⟨false, reqErrs, []⟩

/-!
## Conflict detector

`check_story_conflicts` scans a git diff with the regular expression
`[-+]\s+status:\s+"(\w+)"` (`re.findall`).  We implement that exact
pattern as a left-to-right maximal-munch scanner over the character list,
recording also the leading sign character.  Whitespace and word-character
classes are the ASCII fragments of Python's `\s` and `\w`, which cover
every character a YAML status diff can contain.
-/

/-- ASCII fragment of Python's regex class `\s`. -/
def isSpaceChar (c : Char) : Bool :=
  c == ' ' || c == '\t' || c == '\n' || c == '\r' || c == '\x0b' || c == '\x0c'

/-- ASCII fragment of Python's regex class `\w`. -/
def isWordChar (c : Char) : Bool := c.isAlphanum || c == '_'

/-- Strip an exact literal character sequence, returning the rest. -/
def stripLit : List Char → List Char → Option (List Char)
  | [], r => some r
  | _ :: _, [] => none
  | l :: ls, c :: cs => if c == l then stripLit ls cs else none

/-- Try to match `\s+status:\s+"(\w+)"` at the head of `l` (the characters
following a `-`/`+` sign); on success return the captured word and the
remaining characters.  Maximal munch is equivalent to the regex here since
each repeated class is disjoint from the character that follows it. -/
def matchTail (l : List Char) : Option (String × List Char) :=
  let p1 := l.span isSpaceChar
  if p1.1.isEmpty then none else
  match stripLit ['s', 't', 'a', 't', 'u', 's', ':'] p1.2 with
  | none => none
  | some r2 =>
    let p2 := r2.span isSpaceChar
    if p2.1.isEmpty then none else
    match p2.2 with
    | '"' :: r4 =>
      let p3 := r4.span isWordChar
      if p3.1.isEmpty then none else
      match p3.2 with
      | '"' :: r6 => some (⟨p3.1⟩, r6)
      | _ => none
    | _ => none

/-- Fuelled scanner implementing `re.findall` for the pattern above: walk
left to right, at each `-`/`+` try the tail pattern, on a match record
(sign, captured word) and resume after the match.  Each step consumes at
least one character, so fuel equal to the input length never runs out. -/
def statusChangesAux : Nat → List Char → List (Char × String)
  | 0, _ => []
  | _ + 1, [] => []
  | fuel + 1, c :: rest =>
    if c == '-' || c == '+' then
      match matchTail rest with
      | some (w, r) => (c, w) :: statusChangesAux fuel r
      | none => statusChangesAux fuel rest
    else statusChangesAux fuel rest

/-- All `(sign, status-word)` matches of `[-+]\s+status:\s+"(\w+)"` in the
diff, in order.  The Python code keeps only the captured words; the sign is
recorded here so that properties about added versus removed statuses can be
stated. -/
def statusChanges (diff : String) : List (Char × String) :=
  statusChangesAux diff.length diff.data

/-- The multiple-assignment warning emitted by `check_story_conflicts`. -/
def multiMsg (n : Nat) : String :=
  "Multiple stories being set to 'in_progress' (" ++ toString n
    ++ "). Ensure concurrency limits are respected."

/-- The repository-relative path of the persisted work index. -/
def wipPath : String := "product-development/agentic_work_index.yaml"

/-- Python `check_story_conflicts(data, changed_files)`.  The git diff the Python
code fetches (staged, falling back to unstaged) is supplied as the `diff`
argument. -/
def check_story_conflicts (d : Ledger) (changed_files : List String) (diff : String) :
    ValidationResult :=
  if wipPath ∉ changed_files then ⟨true, [], []⟩
  else
    let changes := statusChanges diff
    let inProg := changes.filter (fun p => p.2 == "in_progress")
    let confWarns :=
      if 2 ≤ changes.length ∧ 1 < inProg.length then [multiMsg inProg.length] else []
    let v := validate_work_index d
    ⟨v.errors.isEmpty, v.errors, confWarns ++ v.warnings⟩

/-- Spec-side counterpart for claim C3, following the specification's
wording: the number of matched status changes that are `in_progress` being
*added* (i.e. on a `+` line). -/
def addedInProgressCount (diff : String) : Nat :=
  ((statusChanges diff).filter (fun p => p.1 == '+' && p.2 == "in_progress")).length

/-!
## Assignment admission controller
-/

/-- Characters before the first `'-'`. -/
def takeUntilDash : List Char → List Char
  | [] => []
  | c :: cs => if c == '-' then [] else c :: takeUntilDash cs

/-- Python `story_id.split('-')[0]`: the segment before the first `-` (the whole
string when it has no `-`). -/
def firstSeg (s : String) : String := ⟨takeUntilDash s.data⟩

/-- Python `c in s` for a single character. -/
def hasChar (c : Char) (s : String) : Bool := s.data.contains c

/-- Python `s.startswith(c)` for a single-character argument. -/
def headIs (c : Char) (s : String) : Bool :=
  match s.data with
  | [] => false
  | a :: _ => a == c

/-- Python `s[1:]`. -/
def dropHead (s : String) : String := ⟨s.data.drop 1⟩

/-- The epic id derived from a story id in `assign_story`:
`story_id.split('-')[0]` when the id contains `-`; if that segment starts
with `E`, the derived epic id is `"EPIC-"` followed by the rest of the
segment. -/
def story_epic_id (sid : String) : Option String :=
  if hasChar '-' sid then
    let seg := firstSeg sid
    if headIs 'E' seg then some ("EPIC-" ++ dropHead seg) else none
  else none

/-- Count of in-progress stories sharing the story's first id segment
(`s.get('id', '').split('-')[0] == story_epic_prefix`). -/
def epicInProgressCount (d : Ledger) (sid : String) : Nat :=
  (storiesOf d).countP
    (fun s => s.status == some "in_progress" && firstSeg (s.id.getD "") == firstSeg sid)

/-- The per-epic refusal message of `assign_story`. -/
def epicLimitMsg (aid : String) (cnt : Nat) (allowed : Int) : String :=
  "Cannot assign: EPIC " ++ aid ++ " concurrency limit reached (" ++ toString cnt
    ++ "/" ++ toString allowed ++ "). Wait for a story in this EPIC to complete."

/-- The global refusal message of `assign_story`. -/
def globalLimitMsg (cnt : Nat) (mx : Int) : String :=
  "Cannot assign: global concurrency limit reached (" ++ toString cnt ++ "/" ++ toString mx
    ++ "). Wait for a story to complete before assigning more."

/-- The per-epic block of `assign_story` (lines 464-500): when the active
epic id is truthy and the story's derived epic id equals it, compare the
epic-restricted in-progress count against the epic's allowance and refuse
with a message if the limit is reached; in every other case no refusal. -/
def epicRefusal (d : Ledger) (sid : String) : Option String :=
  match activeTruthy d with
  | none => none
  | some aid =>
    match story_epic_id sid with
    | none => none
    | some se =>
      if se == aid then
        let allowed := epicAllowed d aid
        let cnt := epicInProgressCount d sid
        if (cnt : Int) ≥ allowed then some (epicLimitMsg aid cnt allowed) else none
      else none

/-- The mutation `assign_story` applies to the found story on success:
status becomes `in_progress`; `assigned_to`/`assigned_at` are set only when
`agent_id` is truthy. -/
def assignedStory (st : Story) (agent_id : Option String) (now : String) : Story :=
  { st with
      status := some "in_progress"
      assigned_to := if strFalsy agent_id then st.assigned_to else agent_id
      assigned_at := if strFalsy agent_id then st.assigned_at else some now }

/-- Split a list around the first element satisfying `p`, mirroring
`get_story_by_id` (a `next(...)` over the list) followed by an in-place
mutation of the found element. -/
def splitFirst (p : Story → Bool) : List Story → Option (List Story × Story × List Story)
  | [] => none
  | s :: rest =>
    if p s then some ([], s, rest)
    else (splitFirst p rest).map (fun t => (s :: t.1, t.2.1, t.2.2))

/-- Python `assign_story(data, story_id, agent_id)`.  Returns (success, message,
resulting ledger); Python mutates `data` in place, which is modelled by
returning the updated ledger, identical to the input on every failure
path.  `now` stands for `datetime.now().isoformat()`. -/
def assign_story (d : Ledger) (story_id : String) (agent_id : Option String) (now : String) :
    Bool × String × Ledger :=
  match splitFirst (fun s => s.id == some story_id) (storiesOf d) with
  | none => (false, "Story " ++ story_id ++ " not found", d)
  | some (pre, story, post) =>
    if story.status == some "in_progress" then
      (false, "Story " ++ story_id ++ " is already in_progress", d)
    else if story.status == some "done" then
      (false, "Story " ++ story_id ++ " is already done", d)
    else
      let current_in_progress := inProgressCount (storiesOf d)
      let max_agents := maxAgents d
      if (current_in_progress : Int) ≥ max_agents then
        (false, globalLimitMsg current_in_progress max_agents, d)
      else
        match epicRefusal d story_id with
        | some msg => (false, msg, d)
        | none =>
          let story' : Story := assignedStory story agent_id now
          (true,
            "Assigned story " ++ story_id ++ " to "
              ++ (if strFalsy agent_id then "agent" else agent_id.getD ""),
            { d with stories := some (pre ++ story' :: post) })

/-!
## Example ledgers used by concrete theorems and witnesses
-/

/-- The end-to-end scenario ledger: `maxAgentsTotal = 4`, active epic
`EPIC-1` with `agentsAllowed = 2`, three ready stories. -/
def exL7 : Ledger :=
  { version := some 1
    product_version := some ⟨some "v1.0.0", some "product/v1.0.0"⟩
    concurrency := some ⟨some 4, some false⟩
    active_epic := some ⟨some "EPIC-1"⟩
    epics := some [⟨some "EPIC-1", some 2⟩]
    stories := some [⟨some "E1-S1", some "ready", some ["a"], none, none⟩,
                     ⟨some "E1-S2", some "ready", some ["a"], none, none⟩,
                     ⟨some "E1-S3", some "ready", some ["a"], none, none⟩] }

/-- Ledger after the first assignment of the scenario. -/
def exL7a : Ledger := (assign_story exL7 "E1-S1" (some "a") "t1").2.2

/-- Ledger after the second assignment of the scenario. -/
def exL7b : Ledger := (assign_story exL7a "E1-S2" (some "b") "t2").2.2

/-- A story with no `id` field whose status is `in_progress`. -/
def storyNoId : Story := ⟨none, some "in_progress", some ["x"], none, none⟩

/-- A ledger containing `storyNoId` as its only story, with the active
epic's allowance at 0. -/
def exL6 : Ledger :=
  { version := some 1
    product_version := some ⟨some "v1.0.0", none⟩
    concurrency := some ⟨some 1, none⟩
    active_epic := some ⟨some "EPIC-1"⟩
    epics := some [⟨some "EPIC-1", some 0⟩]
    stories := some [storyNoId] }

/-- A diff in which two stories move OUT of `in_progress` (both matches are
on removed lines). -/
def exDiffRemoved : String :=
  "-      status: \x22in_progress\x22\n-      status: \x22in_progress\x22\n"

/-!
## Helper lemmas
-/

/-- The function `splitFirst` decomposes the list around the found element. -/
theorem splitFirst_eq {p : Story → Bool} :
    ∀ {ss : List Story} {pre : List Story} {st : Story} {post : List Story},
      splitFirst p ss = some (pre, st, post) → ss = pre ++ st :: post ∧ p st = true := by
  intro ss
  induction ss with
  | nil => intro pre st post h; simp [splitFirst] at h
  | cons a rest ih =>
    intro pre st post h
    rw [splitFirst] at h
    by_cases hp : p a
    · rw [if_pos hp] at h
      obtain ⟨h1, h2, h3⟩ := by simpa using h
      subst h1; subst h2; subst h3
      exact ⟨rfl, hp⟩
    · rw [if_neg hp] at h
      rcases hsp : splitFirst p rest with _ | ⟨p1, s1, po1⟩
      · rw [hsp] at h; simp at h
      · rw [hsp] at h
        obtain ⟨h1, h2, h3⟩ := by simpa using h
        obtain ⟨hEq, hPt⟩ := ih hsp
        subst h1; subst h2; subst h3
        constructor
        · simp [hEq]
        · exact hPt

/-- Inversion of `activeTruthy`. -/
theorem activeTruthy_eq_some {d : Ledger} {a : String} (h : activeTruthy d = some a) :
    activeEpicIdRaw d = some a ∧ a ≠ "" := by
  unfold activeTruthy at h
  cases hr : activeEpicIdRaw d with
  | none => rw [hr] at h; simp at h
  | some s =>
    rw [hr] at h
    dsimp only at h
    by_cases hs : s = ""
    · simp [hs] at h
    · rw [if_neg (by simpa using hs)] at h
      obtain rfl : s = a := by simpa using h
      exact ⟨rfl, hs⟩

/-- Replacing the story list leaves `maxAgents` unchanged. -/
theorem maxAgents_setStories (d : Ledger) (s : Option (List Story)) :
    maxAgents { d with stories := s } = maxAgents d := rfl

/-- Value of `storiesOf` on a ledger with an explicit story list. -/
theorem storiesOf_setStories (d : Ledger) (l : List Story) :
    storiesOf { d with stories := some l } = l := rfl

/-- First character of a string, used to discriminate between the
validator's message families. -/
def headChar (s : String) : Option Char := s.data.head?

/-- Appending on the right preserves a known head character. -/
theorem headChar_of_append (s t : String) (c : Char) (h : headChar s = some c) :
    headChar (s ++ t) = some c := by
  unfold headChar at *
  rw [String.data_append]
  cases hs : s.data with
  | nil => rw [hs] at h; simp at h
  | cons a l =>
    rw [hs] at h
    simp only [List.head?_cons, Option.some.injEq] at h
    subst h
    simp

theorem headChar_perEpicMsg (cnt : Nat) (aid : String) (allowed : Int) :
    headChar (perEpicMsg cnt aid allowed) = some 'T' := by
  unfold perEpicMsg
  repeat apply headChar_of_append
  decide

theorem headChar_globalMsg (total : Nat) (mx : Int) :
    headChar (globalMsg total mx) = some 'G' := by
  unfold globalMsg
  repeat apply headChar_of_append
  decide

theorem headChar_multiMsg (n : Nat) : headChar (multiMsg n) = some 'M' := by
  unfold multiMsg
  repeat apply headChar_of_append
  decide

/-- Every error put out by the per-story loop starts with `S` or `D`. -/
theorem storyChecks_errors_head :
    ∀ (ss : List Story) (seen : List String) (e : String),
      e ∈ (storyChecks seen ss).1 → headChar e = some 'S' ∨ headChar e = some 'D' := by
  intro ss
  induction ss with
  | nil => intro seen e h; simp [storyChecks] at h
  | cons s rest ih =>
    intro seen e h
    rw [storyChecks] at h
    by_cases hid : strFalsy s.id
    · rw [if_pos hid] at h
      rcases List.mem_cons.mp h with h | h
      · subst h; left; decide
      · exact ih seen e h
    · rw [if_neg hid] at h
      dsimp only at h
      have hcases : e ∈ (storyChecks (s.id.getD "" :: seen) rest).1
          ∨ e = "Duplicate story ID: " ++ s.id.getD ""
          ∨ e = "Story " ++ s.id.getD "" ++ " missing 'status' field"
          ∨ e = "Story " ++ s.id.getD "" ++ " has invalid status: " ++ s.status.getD "" := by
        split_ifs at h <;> simp at h <;> tauto
      rcases hcases with h | h | h | h
      · exact ih _ e h
      · subst h; right; repeat apply headChar_of_append
        decide
      · subst h; left; repeat apply headChar_of_append
        decide
      · subst h; left; repeat apply headChar_of_append
        decide

/-- Every warning put out by the per-story loop starts with `S`. -/
theorem storyChecks_warns_head :
    ∀ (ss : List Story) (seen : List String) (w : String),
      w ∈ (storyChecks seen ss).2 → headChar w = some 'S' := by
  intro ss
  induction ss with
  | nil => intro seen w h; simp [storyChecks] at h
  | cons s rest ih =>
    intro seen w h
    rw [storyChecks] at h
    by_cases hid : strFalsy s.id
    · rw [if_pos hid] at h
      exact ih seen w h
    · rw [if_neg hid] at h
      dsimp only at h
      have hcases : w ∈ (storyChecks (s.id.getD "" :: seen) rest).2
          ∨ w = "Story " ++ s.id.getD "" ++ " has no acceptance criteria" := by
        split_ifs at h <;> simp at h <;> tauto
      rcases hcases with h | h
      · exact ih _ w h
      · subst h; repeat apply headChar_of_append
        decide

/-- Every element of `maxAgentsErrors` starts with `m`. -/
theorem mem_maxAgentsErrors {d : Ledger} {e : String} (h : e ∈ maxAgentsErrors d) :
    headChar e = some 'm' := by
  unfold maxAgentsErrors at h
  split at h
  · rcases List.mem_singleton.mp h with rfl; decide
  · simp at h

/-- Every element of `activeEpicErrors` starts with `A`. -/
theorem mem_activeEpicErrors {d : Ledger} {e : String} (h : e ∈ activeEpicErrors d) :
    headChar e = some 'A' := by
  unfold activeEpicErrors at h
  cases hat : activeTruthy d with
  | none => rw [hat] at h; simp at h
  | some aid =>
    rw [hat] at h
    dsimp only at h
    split at h
    · simp at h
    · rcases List.mem_singleton.mp h with rfl
      repeat apply headChar_of_append
      decide

/-- Every element of `globalErrors` is the global message, with head `G`. -/
theorem mem_globalErrors {d : Ledger} {e : String} (h : e ∈ globalErrors d) :
    e = globalMsg (inProgressCount (storiesOf d)) (maxAgents d)
      ∧ (inProgressCount (storiesOf d) : Int) > maxAgents d := by
  unfold globalErrors at h
  dsimp only at h
  split at h
  · rcases List.mem_singleton.mp h with rfl
    exact ⟨rfl, by assumption⟩
  · simp at h

/-- Every element of `versionWarnings` starts with `P`. -/
theorem mem_versionWarnings {d : Ledger} {w : String} (h : w ∈ versionWarnings d) :
    headChar w = some 'P' := by
  unfold versionWarnings at h
  dsimp only at h
  split_ifs at h
  · simp at h
  · simp at h
  · rcases List.mem_singleton.mp h with rfl
    repeat apply headChar_of_append
    decide

/-- Under a truthy active epic id, `perEpicErrors` is exactly the
conditional singleton of the per-epic message. -/
theorem perEpicErrors_of_active {d : Ledger} {a : String} (hact : activeTruthy d = some a) :
    perEpicErrors d =
      (if (inProgressCount (storiesOf d) : Int) > epicAllowed d a
       then [perEpicMsg (inProgressCount (storiesOf d)) a (epicAllowed d a)] else []) := by
  unfold perEpicErrors
  rw [hact]

/-- A string starting with the `EPIC-` literal is never empty. -/
theorem epicStr_ne_empty (x : String) : ("EPIC-" ++ x) ≠ "" := by
  intro hc
  have hd := congrArg String.data hc
  rw [String.data_append] at hd
  simp at hd

/-- Every element of `perEpicErrors` starts with `T`. -/
theorem mem_perEpicErrors_head {d : Ledger} {e : String} (h : e ∈ perEpicErrors d) :
    headChar e = some 'T' := by
  unfold perEpicErrors at h
  cases hat : activeTruthy d with
  | none => rw [hat] at h; simp at h
  | some aid =>
    rw [hat] at h
    dsimp only at h
    split at h
    · rcases List.mem_singleton.mp h with rfl
      exact headChar_perEpicMsg _ _ _
    · simp at h

/-- With all required fields present, the validator's error list is the
concatenation of the five check families, in source order. -/
theorem validate_errors_eq (d : Ledger) (hreq : requiredFieldErrors d = []) :
    (validate_work_index d).errors =
      maxAgentsErrors d ++ activeEpicErrors d ++ (storyChecks [] (storiesOf d)).1
        ++ perEpicErrors d ++ globalErrors d := by
  unfold validate_work_index
  rw [hreq]
  rfl

/-- With all required fields present, the validator's warnings are the
story warnings followed by the version warning. -/
theorem validate_warnings_eq (d : Ledger) (hreq : requiredFieldErrors d = []) :
    (validate_work_index d).warnings =
      (storyChecks [] (storiesOf d)).2 ++ versionWarnings d := by
  unfold validate_work_index
  rw [hreq]
  rfl

/-- With a required field missing, the validator returns only the
missing-field errors, invalid, with no warnings. -/
theorem validate_req (d : Ledger) (h : requiredFieldErrors d ≠ []) :
    validate_work_index d = ⟨false, requiredFieldErrors d, []⟩ := by
  unfold validate_work_index
  rw [if_neg (by simpa using h)]

/-- Every warning of the validator starts with `S` or `P`. -/
theorem validate_warnings_head (d : Ledger) (w : String)
    (h : w ∈ (validate_work_index d).warnings) :
    headChar w = some 'S' ∨ headChar w = some 'P' := by
  by_cases hreq : requiredFieldErrors d = []
  · rw [validate_warnings_eq d hreq] at h
    rcases List.mem_append.mp h with h | h
    · exact Or.inl (storyChecks_warns_head _ _ _ h)
    · exact Or.inr (mem_versionWarnings h)
  · rw [validate_req d hreq] at h
    simp at h

/-- The per-epic concurrency message is in the validator's errors exactly
when the system-wide in-progress count exceeds the active epic's
allowance. -/
theorem perEpic_mem_iff (d : Ledger) (a : String) (hreq : requiredFieldErrors d = [])
    (hact : activeTruthy d = some a) :
    (perEpicMsg (inProgressCount (storiesOf d)) a (epicAllowed d a)
        ∈ (validate_work_index d).errors)
      ↔ (inProgressCount (storiesOf d) : Int) > epicAllowed d a := by
  rw [validate_errors_eq d hreq]
  constructor
  · intro h
    simp only [List.mem_append] at h
    rcases h with (((hA | hB) | hC) | hD) | hE
    · have h2 := mem_maxAgentsErrors hA
      rw [headChar_perEpicMsg] at h2
      exact absurd h2 (by decide)
    · have h2 := mem_activeEpicErrors hB
      rw [headChar_perEpicMsg] at h2
      exact absurd h2 (by decide)
    · rcases storyChecks_errors_head _ _ _ hC with h2 | h2 <;>
        (rw [headChar_perEpicMsg] at h2; exact absurd h2 (by decide))
    · rw [perEpicErrors_of_active hact] at hD
      split_ifs at hD with hc
      · exact hc
      · simp at hD
    · have h2 := congrArg headChar (mem_globalErrors hE).1
      rw [headChar_perEpicMsg, headChar_globalMsg] at h2
      exact absurd h2 (by decide)
  · intro hgt
    simp only [List.mem_append]
    refine Or.inl (Or.inr ?_)
    rw [perEpicErrors_of_active hact, if_pos hgt]
    exact List.mem_singleton.mpr rfl

/-- The global concurrency message is in the validator's errors exactly
when the system-wide in-progress count exceeds `max_agents_total`. -/
theorem global_mem_iff (d : Ledger) (hreq : requiredFieldErrors d = []) :
    (globalMsg (inProgressCount (storiesOf d)) (maxAgents d) ∈ (validate_work_index d).errors)
      ↔ (inProgressCount (storiesOf d) : Int) > maxAgents d := by
  rw [validate_errors_eq d hreq]
  constructor
  · intro h
    simp only [List.mem_append] at h
    rcases h with (((hA | hB) | hC) | hD) | hE
    · have h2 := mem_maxAgentsErrors hA
      rw [headChar_globalMsg] at h2
      exact absurd h2 (by decide)
    · have h2 := mem_activeEpicErrors hB
      rw [headChar_globalMsg] at h2
      exact absurd h2 (by decide)
    · rcases storyChecks_errors_head _ _ _ hC with h2 | h2 <;>
        (rw [headChar_globalMsg] at h2; exact absurd h2 (by decide))
    · have h2 := mem_perEpicErrors_head hD
      rw [headChar_globalMsg] at h2
      exact absurd h2 (by decide)
    · exact (mem_globalErrors hE).2
  · intro hgt
    simp only [List.mem_append]
    refine Or.inr ?_
    unfold globalErrors
    dsimp only
    rw [if_pos hgt]
    exact List.mem_singleton.mpr rfl

/-!
## Claims
-/

/-- C8: for every ledger and every list of changed file paths that does not
contain the persisted work-index path, `check_story_conflicts` returns
valid with empty errors and empty warnings, regardless of the ledger's
contents or any diff text. -/
theorem C8_conflicts_noop (d : Ledger) (files : List String) (diff : String)
    (h : wipPath ∉ files) :
    check_story_conflicts d files diff = ⟨true, [], []⟩ := by
  unfold check_story_conflicts
  rw [if_pos h]

theorem C8_conflicts_noop_witness :
    wipPath ∉ ["other_file.py"] ∧
      check_story_conflicts exL6 ["other_file.py"] exDiffRemoved = ⟨true, [], []⟩ :=
  ⟨by decide, C8_conflicts_noop exL6 ["other_file.py"] exDiffRemoved (by decide)⟩

/-- C4: whenever `assign_story` returns failure (story not found, already
in_progress, already done, global capacity reached, or per-epic capacity
reached), the returned ledger is exactly the input ledger: nothing was
mutated. -/
theorem C4_assign_failure_leaves_ledger (d : Ledger) (sid : String) (aid : Option String)
    (now : String) (h : (assign_story d sid aid now).1 = false) :
    (assign_story d sid aid now).2.2 = d := by
  revert h
  unfold assign_story
  rcases splitFirst (fun s => s.id == some sid) (storiesOf d) with _ | ⟨pre, st, post⟩
  · intro _; rfl
  · dsimp only
    split
    · intro _; rfl
    · split
      · intro _; rfl
      · split
        · intro _; rfl
        · split
          · intro _; rfl
          · intro h; simp at h

theorem C4_assign_failure_leaves_ledger_witness :
    (assign_story exL6 "E9-S9" none "t").1 = false ∧
      (assign_story exL6 "E9-S9" none "t").2.2 = exL6 :=
  ⟨by decide, C4_assign_failure_leaves_ledger exL6 "E9-S9" none "t" (by decide)⟩

/-- C7: in the end-to-end scenario (global cap 4, active epic `EPIC-1` with
allowance 2, three ready stories), the first two assignments succeed (the
first setting `E1-S1` to `in_progress`), and the third fails with the
per-EPIC concurrency message mentioning `2/2`. -/
theorem C7_scenario :
    (assign_story exL7 "E1-S1" (some "a") "t1").1 = true ∧
      ((storiesOf exL7a).find? (fun s => s.id == some "E1-S1")).map Story.status
        = some (some "in_progress") ∧
      (assign_story exL7a "E1-S2" (some "b") "t2").1 = true ∧
      (assign_story exL7b "E1-S3" (some "c") "t3").1 = false ∧
      (assign_story exL7b "E1-S3" (some "c") "t3").2.1
        = "Cannot assign: EPIC EPIC-1 concurrency limit reached (2/2)."
          ++ " Wait for a story in this EPIC to complete." := by
  refine ⟨by decide, by decide, by decide, by decide, by decide⟩

/-- C1: if the total number of in-progress stories does not exceed
`concurrency.max_agents_total`, then after any call to `assign_story`
(success or failure, any story id, any optional agent id) it still does
not. -/
theorem C1_assign_preserves_global_cap (d : Ledger) (sid : String) (aid : Option String)
    (now : String) (h : (inProgressCount (storiesOf d) : Int) ≤ maxAgents d) :
    (inProgressCount (storiesOf (assign_story d sid aid now).2.2) : Int)
      ≤ maxAgents ((assign_story d sid aid now).2.2) := by
  unfold assign_story
  rcases hsp : splitFirst (fun s => s.id == some sid) (storiesOf d) with _ | ⟨pre, st, post⟩
  · simpa using h
  · obtain ⟨hss, -⟩ := splitFirst_eq hsp
    dsimp only
    by_cases hip : st.status == some "in_progress"
    · simpa [hip] using h
    · rw [Bool.not_eq_true] at hip
      by_cases hdone : st.status == some "done"
      · simpa [hip, hdone] using h
      · rw [Bool.not_eq_true] at hdone
        by_cases hglob : (inProgressCount (storiesOf d) : Int) ≥ maxAgents d
        · simpa [hip, hdone, hglob] using h
        · cases her : epicRefusal d sid with
          | some msg => simpa [hip, hdone, hglob, her] using h
          | none =>
            simp only [hip, hdone, hglob, her, Bool.false_eq_true, if_false, if_neg,
              storiesOf_setStories, maxAgents_setStories]
            rw [hss] at h hglob
            unfold inProgressCount at hglob h ⊢
            simp only [List.countP_append, List.countP_cons, hip, assignedStory] at hglob ⊢
            simp only [beq_self_eq_true, if_true]
            push_cast at hglob ⊢
            omega

theorem C1_assign_preserves_global_cap_witness :
    (inProgressCount (storiesOf exL7) : Int) ≤ maxAgents exL7 ∧
      (inProgressCount (storiesOf (assign_story exL7 "E1-S1" (some "a") "t1").2.2) : Int)
        ≤ maxAgents ((assign_story exL7 "E1-S1" (some "a") "t1").2.2) :=
  ⟨by decide, C1_assign_preserves_global_cap exL7 "E1-S1" (some "a") "t1" (by decide)⟩

/-- C10: in `assign_story`, for every story id containing `-` whose first
`-`-separated segment starts with `E`, the derived epic id is `EPIC-`
followed by the remainder of that segment even when the remainder is empty
or not digits (`EX-S1` derives `EPIC-X`, `E-S1` derives `EPIC-`), and the
per-epic capacity check runs if and only if this derived id equals the
active epic's id. -/
theorem C10_derived_epic_id (d : Ledger) (sid : String)
    (h1 : hasChar '-' sid = true) (h2 : headIs 'E' (firstSeg sid) = true) :
    story_epic_id sid = some ("EPIC-" ++ dropHead (firstSeg sid))
    ∧ story_epic_id "EX-S1" = some "EPIC-X"
    ∧ story_epic_id "E-S1" = some "EPIC-"
    ∧ (activeEpicIdRaw d ≠ some ("EPIC-" ++ dropHead (firstSeg sid)) →
        epicRefusal d sid = none)
    ∧ (activeEpicIdRaw d = some ("EPIC-" ++ dropHead (firstSeg sid)) →
        epicRefusal d sid =
          (if (epicInProgressCount d sid : Int)
                ≥ epicAllowed d ("EPIC-" ++ dropHead (firstSeg sid))
           then some (epicLimitMsg ("EPIC-" ++ dropHead (firstSeg sid))
                        (epicInProgressCount d sid)
                        (epicAllowed d ("EPIC-" ++ dropHead (firstSeg sid))))
           else none)) := by
  have hderive : story_epic_id sid = some ("EPIC-" ++ dropHead (firstSeg sid)) := by
    simp [story_epic_id, h1, h2]
  refine ⟨hderive, by decide, by decide, ?_, ?_⟩
  · intro hne
    unfold epicRefusal
    cases hat : activeTruthy d with
    | none => rfl
    | some aid =>
      obtain ⟨hraw, -⟩ := activeTruthy_eq_some hat
      rw [hderive]
      dsimp only
      have : ("EPIC-" ++ dropHead (firstSeg sid)) ≠ aid := by
        intro hc; rw [hc] at hne; exact hne hraw
      simp [this]
  · intro hraw
    have hat : activeTruthy d = some ("EPIC-" ++ dropHead (firstSeg sid)) := by
      unfold activeTruthy
      rw [hraw]
      simp [epicStr_ne_empty]
    unfold epicRefusal
    rw [hat, hderive]
    simp

theorem C10_derived_epic_id_witness :
    hasChar '-' "E1-S1" = true ∧ headIs 'E' (firstSeg "E1-S1") = true ∧
      story_epic_id "E1-S1" = some ("EPIC-" ++ dropHead (firstSeg "E1-S1")) :=
  ⟨by decide, by decide, (C10_derived_epic_id exL7 "E1-S1" (by decide) (by decide)).1⟩

/-- C9: `assign_story` refuses a found story on account of its status only
when that status is exactly `in_progress` or exactly `done`; any other
status (including `blocked`, `ready`, or a missing status) passes the
status guards, and when the capacity checks also pass the story is
assigned and set to `in_progress`. -/
theorem C9_status_guards (d : Ledger) (sid : String) (aid : Option String) (now : String)
    (pre : List Story) (st : Story) (post : List Story)
    (hfind : splitFirst (fun s => s.id == some sid) (storiesOf d) = some (pre, st, post)) :
    (st.status = some "in_progress" ∨ st.status = some "done" →
        (assign_story d sid aid now).1 = false)
    ∧ (st.status ≠ some "in_progress" → st.status ≠ some "done" →
        (assign_story d sid aid now).1 = false →
          ((inProgressCount (storiesOf d) : Int) ≥ maxAgents d ∨ epicRefusal d sid ≠ none))
    ∧ (st.status ≠ some "in_progress" → st.status ≠ some "done" →
        ¬((inProgressCount (storiesOf d) : Int) ≥ maxAgents d) →
        epicRefusal d sid = none →
        (assign_story d sid aid now).1 = true ∧
          storiesOf (assign_story d sid aid now).2.2 =
            pre ++ assignedStory st aid now :: post) := by
  refine ⟨?_, ?_, ?_⟩
  · rintro (hip | hdone)
    · simp [assign_story, hfind, hip]
    · simp [assign_story, hfind, hdone]
  · intro hip hdone hfail
    by_cases hglob : (inProgressCount (storiesOf d) : Int) ≥ maxAgents d
    · exact Or.inl hglob
    · cases her : epicRefusal d sid with
      | some msg => exact Or.inr (by simp [her])
      | none =>
        exfalso
        simp [assign_story, hfind, hip, hdone, hglob, her] at hfail
  · intro hip hdone hglob her
    constructor
    · simp [assign_story, hfind, hip, hdone, hglob, her]
    · simp [assign_story, hfind, hip, hdone, hglob, her, storiesOf_setStories]

theorem C9_status_guards_witness :
    (assign_story exL7 "E1-S1" (some "c") "t9").1 = true := by
  have h := C9_status_guards exL7 "E1-S1" (some "c") "t9" []
    ⟨some "E1-S1", some "ready", some ["a"], none, none⟩
    [⟨some "E1-S2", some "ready", some ["a"], none, none⟩,
     ⟨some "E1-S3", some "ready", some ["a"], none, none⟩] (by decide)
  exact (h.2.2 (by decide) (by decide) (by decide) (by decide)).1

/-- C2: for every ledger that passes the required-field check and has a
truthy active epic id, `validate_work_index` reports the per-epic
concurrency error if and only if the count of ALL in-progress stories
system-wide strictly exceeds the active epic's allowance; the message
(`perEpicMsg`) names both that count and the allowance, and every
`T`-headed error is exactly that message. -/
theorem C2_per_epic_check (d : Ledger) (a : String) (hreq : requiredFieldErrors d = [])
    (hact : activeTruthy d = some a) :
    ((perEpicMsg (inProgressCount (storiesOf d)) a (epicAllowed d a)
        ∈ (validate_work_index d).errors)
      ↔ (inProgressCount (storiesOf d) : Int) > epicAllowed d a)
    ∧ (∀ e ∈ (validate_work_index d).errors, headChar e = some 'T' →
        e = perEpicMsg (inProgressCount (storiesOf d)) a (epicAllowed d a)) := by
  refine ⟨perEpic_mem_iff d a hreq hact, ?_⟩
  intro e he hT
  rw [validate_errors_eq d hreq] at he
  simp only [List.mem_append] at he
  rcases he with (((hA | hB) | hC) | hD) | hE
  · rw [mem_maxAgentsErrors hA] at hT
    exact absurd hT (by decide)
  · rw [mem_activeEpicErrors hB] at hT
    exact absurd hT (by decide)
  · rcases storyChecks_errors_head _ _ _ hC with h2 | h2 <;>
      (rw [h2] at hT; exact absurd hT (by decide))
  · rw [perEpicErrors_of_active hact] at hD
    split_ifs at hD with hc
    · exact List.mem_singleton.mp hD
    · simp at hD
  · rw [(mem_globalErrors hE).1, headChar_globalMsg] at hT
    exact absurd hT (by decide)

theorem C2_per_epic_check_witness :
    requiredFieldErrors exL6 = [] ∧ activeTruthy exL6 = some "EPIC-1" ∧
      ((perEpicMsg (inProgressCount (storiesOf exL6)) "EPIC-1" (epicAllowed exL6 "EPIC-1")
          ∈ (validate_work_index exL6).errors)
        ↔ (inProgressCount (storiesOf exL6) : Int) > epicAllowed exL6 "EPIC-1") :=
  ⟨by decide, by decide, (C2_per_epic_check exL6 "EPIC-1" (by decide) (by decide)).1⟩

/-- C3 (counterexample to the claim as stated): on a diff whose two matched
status changes are both `in_progress` on REMOVED (`-`) lines, the
multiple-assignment warning is emitted even though no `in_progress` is
being added, so the warning is not equivalent to "more than one
`in_progress` added". -/
theorem C3_counterexample :
    (multiMsg 2 ∈ (check_story_conflicts exL6 [wipPath] exDiffRemoved).warnings)
    ∧ addedInProgressCount exDiffRemoved = 0
    ∧ ¬(2 ≤ (statusChanges exDiffRemoved).length ∧ 1 < addedInProgressCount exDiffRemoved) :=
  ⟨by decide, by decide, by decide⟩

/-- C3 (amended): when the persisted work-index path is among the changed
paths, `check_story_conflicts` emits the multiple-assignment warning if and
only if the diff contains two or more matched status changes and more than
one of the matched words is `in_progress` — counting matches on both added
(`+`) and removed (`-`) lines. -/
theorem C3_multi_warning_iff (d : Ledger) (files : List String) (diff : String)
    (h : wipPath ∈ files) :
    (multiMsg ((statusChanges diff).filter (fun p => p.2 == "in_progress")).length
        ∈ (check_story_conflicts d files diff).warnings)
      ↔ (2 ≤ (statusChanges diff).length
          ∧ 1 < ((statusChanges diff).filter (fun p => p.2 == "in_progress")).length) := by
  unfold check_story_conflicts
  rw [if_neg (not_not_intro h)]
  dsimp only
  constructor
  · intro hm
    rcases List.mem_append.mp hm with hm | hm
    · split_ifs at hm with hc
      · exact hc
      · simp at hm
    · rcases validate_warnings_head d _ hm with h2 | h2 <;>
        (rw [headChar_multiMsg] at h2; exact absurd h2 (by decide))
  · intro hc
    apply List.mem_append.mpr
    left
    rw [if_pos hc]
    exact List.mem_singleton.mpr rfl

theorem C3_multi_warning_iff_witness :
    wipPath ∈ [wipPath] ∧
      ((multiMsg ((statusChanges exDiffRemoved).filter (fun p => p.2 == "in_progress")).length
          ∈ (check_story_conflicts exL6 [wipPath] exDiffRemoved).warnings)
        ↔ (2 ≤ (statusChanges exDiffRemoved).length
            ∧ 1 < ((statusChanges exDiffRemoved).filter (fun p => p.2 == "in_progress")).length)) :=
  ⟨by decide, C3_multi_warning_iff exL6 [wipPath] exDiffRemoved (by decide)⟩

/-- C6 (counterexample to the claim as stated): in `exL6`, the only story
has no `id` and status `in_progress`; the claim says it is counted toward
nothing, hence the per-epic in-progress count would be 0 and no per-epic
error could name count 1 — yet `validate_work_index` reports the per-epic
error with count 1 (and no error with count 0). -/
theorem C6_counterexample :
    storyNoId.id = none ∧ storyNoId.status = some "in_progress" ∧
      storiesOf exL6 = [storyNoId] ∧
      perEpicMsg 1 "EPIC-1" 0 ∈ (validate_work_index exL6).errors ∧
      perEpicMsg 0 "EPIC-1" 0 ∉ (validate_work_index exL6).errors :=
  ⟨rfl, rfl, rfl, by decide, by decide⟩

/-- C6 (amended): a story lacking an `id` field produces the missing-id
error and is excluded from all further per-story checks, but it DOES count
toward the in-progress totals: `inProgressCount` counts every story whose
status is `in_progress` regardless of id, and both concurrency checks of
`validate_work_index` compare exactly that count against their limits. -/
theorem C6_missing_id_counting :
    (∀ (s : Story) (seen : List String) (rest : List Story), strFalsy s.id = true →
        storyChecks seen (s :: rest) =
          ("Story missing required 'id' field" :: (storyChecks seen rest).1,
            (storyChecks seen rest).2))
    ∧ (∀ (s : Story) (pre post : List Story), s.status = some "in_progress" →
        inProgressCount (pre ++ s :: post) = inProgressCount (pre ++ post) + 1)
    ∧ (∀ (d : Ledger) (a : String), requiredFieldErrors d = [] → activeTruthy d = some a →
        ((perEpicMsg (inProgressCount (storiesOf d)) a (epicAllowed d a)
            ∈ (validate_work_index d).errors)
          ↔ (inProgressCount (storiesOf d) : Int) > epicAllowed d a)
        ∧ ((globalMsg (inProgressCount (storiesOf d)) (maxAgents d)
            ∈ (validate_work_index d).errors)
          ↔ (inProgressCount (storiesOf d) : Int) > maxAgents d)) := by
  refine ⟨?_, ?_, ?_⟩
  · intro s seen rest hf
    rw [storyChecks, if_pos hf]
  · intro s pre post hst
    unfold inProgressCount
    simp only [List.countP_append, List.countP_cons, hst, beq_self_eq_true, if_true]
    omega
  · intro d a hreq hact
    exact ⟨perEpic_mem_iff d a hreq hact, global_mem_iff d hreq⟩

theorem C6_missing_id_counting_witness :
    strFalsy storyNoId.id = true ∧
      storyChecks [] [storyNoId] =
        ("Story missing required 'id' field" :: (storyChecks [] []).1, (storyChecks [] []).2) ∧
      (storyNoId.status = some "in_progress" ∧
        inProgressCount ([] ++ storyNoId :: []) = inProgressCount ([] ++ []) + 1) ∧
      (requiredFieldErrors exL6 = [] ∧ activeTruthy exL6 = some "EPIC-1" ∧
        ((perEpicMsg (inProgressCount (storiesOf exL6)) "EPIC-1" (epicAllowed exL6 "EPIC-1")
            ∈ (validate_work_index exL6).errors)
          ↔ (inProgressCount (storiesOf exL6) : Int) > epicAllowed exL6 "EPIC-1")) :=
  ⟨by decide, C6_missing_id_counting.1 storyNoId [] [] (by decide),
    ⟨rfl, C6_missing_id_counting.2.1 storyNoId [] [] rfl⟩,
    ⟨by decide, by decide,
      (C6_missing_id_counting.2.2 exL6 "EPIC-1" (by decide) (by decide)).1⟩⟩

/-- A ledger missing only the `stories` field. -/
def exL5 : Ledger :=
  { version := some 1
    product_version := some ⟨some "v1.0.0", none⟩
    concurrency := some ⟨some 1, none⟩
    active_epic := some ⟨some "EPIC-1"⟩
    epics := some []
    stories := none }

/-- The function `missingFieldMsg` is injective: the constant message part can be
cancelled on the left. -/
theorem missingFieldMsg_inj : Function.Injective missingFieldMsg := by
  intro a b h
  unfold missingFieldMsg at h
  have hd := congrArg String.data h
  rw [String.data_append, String.data_append] at hd
  exact String.ext (List.append_cancel_left hd)

/-- Each required-field name occurs in `requiredFieldErrors` exactly once
when absent and not at all when present. -/
theorem count_reqFieldErrors (d : Ledger) (f : String) (hmem : f ∈ reqFieldNames) :
    (requiredFieldErrors d).count (missingFieldMsg f)
      = if fieldAbsent d f then 1 else 0 := by
  unfold requiredFieldErrors
  rw [List.count_map_of_injective _ _ missingFieldMsg_inj]
  by_cases hf : fieldAbsent d f
  · rw [if_pos hf, List.count_filter hf]
    fin_cases hmem <;> decide
  · rw [if_neg hf, List.count_eq_zero]
    intro hc
    exact hf (List.mem_filter.mp hc).2

/-- C5: for every ledger missing at least one of the six required fields,
`validate_work_index` returns invalid, with empty warnings, with exactly
one missing-field error per absent field, and with errors of no other
kind (its error count for each field name is the field's absence
indicator and every error is a missing-field message for an absent
required field, so no structural, story, or concurrency check contributes
anything). -/
theorem C5_required_fields_short_circuit (d : Ledger) (h : requiredFieldErrors d ≠ []) :
    (validate_work_index d).is_valid = false
    ∧ (validate_work_index d).warnings = []
    ∧ (∀ f ∈ reqFieldNames, (validate_work_index d).errors.count (missingFieldMsg f)
        = if fieldAbsent d f then 1 else 0)
    ∧ (∀ e ∈ (validate_work_index d).errors,
        ∃ f ∈ reqFieldNames, fieldAbsent d f = true ∧ e = missingFieldMsg f) := by
  rw [validate_req d h]
  refine ⟨rfl, rfl, fun f hf => count_reqFieldErrors d f hf, ?_⟩
  intro e he
  unfold requiredFieldErrors at he
  obtain ⟨f, hfmem, rfl⟩ := List.mem_map.mp he
  obtain ⟨hfn, hfa⟩ := List.mem_filter.mp hfmem
  exact ⟨f, hfn, hfa, rfl⟩

theorem C5_required_fields_short_circuit_witness :
    requiredFieldErrors exL5 ≠ [] ∧ (validate_work_index exL5).is_valid = false :=
  ⟨by decide, (C5_required_fields_short_circuit exL5 (by decide)).1⟩
